import Mathlib

/-!
Verification development for the Polymer-Growth repository
(`polpymer/core_funcs.py` and `polpymer/data_funcs.py`).

The Python classes `Monomer`, `Polymer` and `Dish` are shallowly embedded as
Lean structures and pure functions.  Mutation of `self` becomes explicit
state passing; every method that mutates a `Polymer` returns the updated
record.  NumPy float arrays hold only exact values produced by integer
products, doublings and halvings, so they are modelled as `List ℚ`; lattice
coordinates are `ℤ × ℤ`.  The calls to `random.choice` are abstracted as
oracle functions supplied by the caller (`pick` for direction draws, `coin`
for the prune/enrich coin flips), which makes every run of the model a run
of the program for some sequence of random draws.

Python dictionary keys of the form `monomer_<n>` are modelled by the integer
`n` itself: `str` is injective on integers, so string-key equality agrees
with integer-key equality on all keys the program ever builds.
-/

namespace Polpymer

/-- `ANGLE_TO_ADD` from `core_funcs.py` (identical table in `data_funcs.py`):
unit displacement for each of the four angles 0,1,2,3 = +x,+y,-x,-y. -/
def ANGLE_TO_ADD : List (ℤ × ℤ) := [(1,0), (0,1), (-1,0), (0,-1)]

/-- `Monomer`: a single link, with its angle, start (`location`) and end
(`end_location`).  In every code path relevant to the claims the location is
assigned immediately after construction and `calculate_end` is called right
away, so the two coordinates are stored as plain fields. -/
structure Monomer where
  angle : ℕ
  location : ℤ × ℤ
  endLocation : ℤ × ℤ
deriving DecidableEq, Repr

/-- `Monomer(ang)` followed by `location = loc; calculate_end()` — the exact
construction sequence used in `Polymer.__init__`, `Polymer.add_monomer`,
`Polymer.grow_polymer` and `Dish.PERM`.  Angles are always drawn from
`[0,1,2,3]`; `getD` gives the table lookup a (never used) default. -/
def mkMonomer (ang : ℕ) (loc : ℤ × ℤ) : Monomer :=
  let add := ANGLE_TO_ADD.getD ang (0, 0)
  { angle := ang, location := loc, endLocation := (loc.1 + add.1, loc.2 + add.2) }

/-- `Polymer` state (`core_funcs.py`).  `monomers` keeps the dictionary in
insertion order with integer keys standing for the `monomer_<n>` strings.
`nodes_locsx`/`nodes_locsy` are `None` until `compute_node_weights` fills
them; the empty list plays the role of `None` (the computed lists are never
empty because every polymer has at least the seed link). -/
structure Polymer where
  chain_length : ℕ
  chain_start : ℤ × ℤ
  chain_end : ℤ × ℤ
  origin : ℤ × ℤ
  monomers : List (ℤ × Monomer)
  claimed_sites : List (ℤ × ℤ)
  node_m_vals : List ℚ
  node_weights : List ℚ
  nodes_locsx : List ℤ
  nodes_locsy : List ℤ
  pruned : Bool
deriving DecidableEq, Repr

/-- `Polymer.__init__(dims, origin)` with `init_with_monomer=True`; the seed
angle (drawn by `random.choice([0,1,2,3])` in the code) is the explicit
argument `seedAng`.  The grid `dims` is unused by the growth logic and
dropped.  Class-level defaults supply `node_m_vals = []`,
`node_weights = []` and the un-computed node location lists. -/
def Polymer.init (origin : ℤ × ℤ) (seedAng : ℕ) : Polymer :=
  let sm := mkMonomer seedAng origin
  { chain_length := 1
    chain_start := origin
    chain_end := sm.endLocation
    origin := origin
    monomers := [((0 : ℤ), sm)]
    claimed_sites := [origin, sm.endLocation]
    node_m_vals := []
    node_weights := []
    nodes_locsx := []
    nodes_locsy := []
    pruned := false }

/-- `Polymer.conflict` from `core_funcs.py` (lines 207–225): conflict iff the
proposed end is already claimed, or the proposed start is neither anchor.
Note: no explicit loop-closure clause. -/
def Polymer.conflict (p : Polymer) (prop_monomer : Monomer) : Bool :=
  let cross := p.claimed_sites.contains prop_monomer.endLocation
  let attach_end := !((prop_monomer.location == p.chain_start)
                      || (prop_monomer.location == p.chain_end))
  cross || attach_end

/-- `Polymer.conflict` from `data_funcs.py` (lines 111–119), as a pure
predicate over the chain state it reads: it adds the explicit loop-closure
clause `end == chain_start`. -/
def conflictData (claimed : List (ℤ × ℤ)) (chainStart chainEnd : ℤ × ℤ)
    (prop_monomer : Monomer) : Bool :=
  let cross := claimed.contains prop_monomer.endLocation
  let attach_end := !((prop_monomer.location == chainStart)
                      || (prop_monomer.location == chainEnd))
  let close := prop_monomer.endLocation == chainStart
  cross || attach_end || close

/-- `Polymer.add_monomer(ang, loc)` from `core_funcs.py` (lines 165–204).
Returns the post-call state together with the raised exception, if any; the
code raises `ValueError` on a bad `loc` string before touching anything,
`IndexError` inside `calculate_end` when `ang` is outside the direction
table, and `Exception` on a conflicting candidate, also before any
mutation.  On success it increments the length, stores the monomer under
the next key, moves whichever anchor equals the chosen start (testing
`chain_start` first), and appends the *current* `chain_end` to
`claimed_sites`. -/
def Polymer.add_monomer (p : Polymer) (ang : ℕ) (loc : String) :
    Polymer × Option String :=
  if loc = ("start") ∨ loc = ("end") then
    let start_loc := if loc = ("start") then p.chain_start else p.chain_end
    if ang < 4 then
      let pm := mkMonomer ang start_loc
      if p.conflict pm then
        (p, some ("Exception"))
      else
        let n := p.chain_length + 1
        let p1 := { p with chain_length := n
                           monomers := p.monomers ++ [(((n - 1 : ℕ) : ℤ), pm)] }
        let p2 :=
          if start_loc = p1.chain_start then { p1 with chain_start := pm.endLocation }
          else if start_loc = p1.chain_end then { p1 with chain_end := pm.endLocation }
          else p1
        ({ p2 with claimed_sites := p2.claimed_sites ++ [p2.chain_end] }, none)
    else (p, some ("IndexError"))
  else (p, some ("ValueError"))

/-- Dictionary lookup `monomers['monomer_<k>']`, `none` standing for a
`KeyError`. -/
def lookupEntry (l : List (ℤ × Monomer)) (k : ℤ) : Option Monomer :=
  (l.find? (fun e => e.1 == k)).map Prod.snd

/-- `Polymer.__getitem__(item)` (lines 158–160): looks up
`monomer_<item+1>`. -/
def Polymer.getitem (p : Polymer) (item : ℤ) : Option Monomer :=
  lookupEntry p.monomers (item + 1)

/-- `Polymer.__iter__`: yields `monomers['monomer_0']` … up to the chain
length.  All reachable polymers have exactly these keys; a missing key
(Python `KeyError`) is skipped by `filterMap`. -/
def Polymer.monomerSeq (p : Polymer) : List Monomer :=
  (List.range p.chain_length).filterMap (fun i => lookupEntry p.monomers (i : ℤ))

/-- `np.sum` of a float array holding exact rationals. -/
def sumQ (l : List ℚ) : ℚ := l.sum

/-- `np.prod` of a float array holding exact rationals. -/
def prodQ (l : List ℚ) : ℚ := l.prod

/-- `Polymer.compute_node_weights` (lines 287–313): collects node x/y
coordinates (each monomer's start plus the final `chain_end`) and sets
`node_weights[i] = np.prod(node_m_vals[0:i+1])` for `i < chain_length`. -/
def Polymer.compute_node_weights (p : Polymer) : Polymer :=
  let locs := p.monomerSeq
  let xs := locs.map (fun mo => mo.location.1) ++ [p.chain_end.1]
  let ys := locs.map (fun mo => mo.location.2) ++ [p.chain_end.2]
  let w := (List.range p.chain_length).map (fun i => prodQ (p.node_m_vals.take (i + 1)))
  { p with nodes_locsx := xs, nodes_locsy := ys, node_weights := w }

/-- One entry of the `end_to_end` array in `Polymer.observables`:
`(x_[0] - x_[i+1])**2 + (y_[0] - y_[i+1])**2` as an exact value. -/
def endToEndAt (xs ys : List ℤ) (i : ℕ) : ℚ :=
  (((xs.getD 0 0 - xs.getD (i + 1) 0) ^ 2 + (ys.getD 0 0 - ys.getD (i + 1) 0) ^ 2 : ℤ) : ℚ)

/-- The first `n` entries of a NumPy coordinate array, as exact values. -/
def castSeg (l : List ℤ) (n : ℕ) : List ℚ := (l.take n).map (fun v => Int.cast v)

/-- One entry of the `gyration` array in `Polymer.observables`: centre of
mass `1/(i+1) * np.sum(x_[0:i+1])` and the matching mean squared
deviations, over the NumPy slice `[0:i+1]`, i.e. the first `i+1` nodes. -/
def gyrationAt (xs ys : List ℤ) (i : ℕ) : ℚ :=
  let n : ℚ := ((i + 1 : ℕ) : ℚ)
  let xseg := castSeg xs (i + 1)
  let yseg := castSeg ys (i + 1)
  let cm_x := 1 / n * sumQ xseg
  let cm_y := 1 / n * sumQ yseg
  1 / n * sumQ (xseg.map (fun v => (v - cm_x) ^ 2))
    + 1 / n * sumQ (yseg.map (fun v => (v - cm_y) ^ 2))

/-- `Polymer.observables` (lines 227–259): recomputes the node data when it
is still `None`, then builds the two arrays over `i in range(chain_length)`. -/
def Polymer.observables (p : Polymer) : List ℚ × List ℚ :=
  let q := if p.nodes_locsx.isEmpty || p.nodes_locsy.isEmpty
           then p.compute_node_weights else p
  let L := q.chain_length
  ((List.range L).map (fun i => endToEndAt q.nodes_locsx q.nodes_locsy i),
   (List.range L).map (fun i => gyrationAt q.nodes_locsx q.nodes_locsy i))

/-- The `grow_options` computation shared by `Polymer.grow_polymer` and
`Dish.PERM`: start from `[0,1,2,3]` and remove every direction whose
candidate monomer (anchored at `chain_end`) conflicts. -/
def growOptions (p : Polymer) : List ℕ :=
  [0, 1, 2, 3].filter (fun j => !(p.conflict (mkMonomer j p.chain_end)))

/-- The loop body of `Polymer.grow_polymer` (lines 262–285), recursing on the
remaining iteration count of `range(length-1)`.  `pick i` chooses the index
of the random draw at iteration `i` (`random.choice(grow_options)`).  On a
dead end the loop records `0` and breaks.  The `add_monomer` call cannot
raise because the chosen direction was filtered as non-conflicting. -/
def growLoop (pick : ℕ → ℕ) : ℕ → ℕ → Polymer → List ℚ → Polymer × List ℚ
  | 0, _, p, m => (p, m)
  | k + 1, i, p, m =>
    let opts := growOptions p
    if 0 < opts.length then
      let ang := opts.getD (pick i % opts.length) 0
      growLoop pick k (i + 1) (p.add_monomer ang ("end")).1 (m ++ [(opts.length : ℚ)])
    else (p, m ++ [0])

/-- `Polymer.grow_polymer(length)`: runs the loop starting from `m = [4]` and
stores the resulting array in `node_m_vals`.  The Python method returns
`None`; the updated polymer is the whole effect. -/
def Polymer.grow_polymer (p : Polymer) (length : ℕ) (pick : ℕ → ℕ) : Polymer :=
  let r := growLoop pick (length - 1) 0 p [4]
  { r.1 with node_m_vals := r.2 }

/-- `Dish.find_polymer(1)` as used to seed `Dish.PERM` and `Dish.FRW`: the
`while` loop always exits after one iteration for target length 1, so the
seed is a fresh polymer with `node_m_vals = [4]`. -/
def seedChain (origin : ℤ × ℤ) (seedAng : ℕ) : Polymer :=
  (Polymer.init origin seedAng).grow_polymer 1 (fun _ => 0)

/-- `polymer.node_weights[-1]`, the cached last weight read throughout
`Dish.PERM`. -/
def lastWeight (p : Polymer) : ℚ := p.node_weights.getLastD 0

/-- NumPy `arr[-1] = v` on `node_m_vals`. -/
def setLast (l : List ℚ) (v : ℚ) : List ℚ := l.dropLast ++ [v]

/-- `m[-1]` of `node_m_vals`. -/
def lastM (p : Polymer) : ℚ := p.node_m_vals.getLastD 0

/-- The per-polymer body of the first loop of a `Dish.PERM` round
(`core_funcs.py` lines 467–489): a non-pruned polymer either grows by one
randomly chosen non-conflicting monomer (recording the branching factor and
counting towards `N_polymers`) or dead-ends (recording `0` and being marked
pruned); an already-pruned polymer just records `0`.  In every case
`node_m_vals` is reassigned, `compute_node_weights` is rerun and the last
cached weight is appended to `w`.  Returns (updated polymer, appended `w`
entry, whether the polymer grew this round). -/
def growPhaseOne (c : ℕ) (p : Polymer) : Polymer × ℚ × Bool :=
  if p.pruned then
    let p1 := ({ p with node_m_vals := p.node_m_vals ++ [0] }).compute_node_weights
    (p1, lastWeight p1, false)
  else
    let opts := growOptions p
    if 0 < opts.length then
      let ang := opts.getD (c % opts.length) 0
      let p1 := (p.add_monomer ang ("end")).1
      let p1 := ({ p1 with node_m_vals := p.node_m_vals ++ [(opts.length : ℚ)] }).compute_node_weights
      (p1, lastWeight p1, true)
    else
      let p1 := ({ p with pruned := true, node_m_vals := p.node_m_vals ++ [0] }).compute_node_weights
      (p1, lastWeight p1, false)

/-- The first loop of a `Dish.PERM` round over the whole population, in list
order, threading the chain index into the direction oracle. -/
def permGrowPhaseAux (pick : ℕ → ℕ) : ℕ → List Polymer → List (Polymer × ℚ × Bool)
  | _, [] => []
  | k, p :: rest => growPhaseOne (pick k) p :: permGrowPhaseAux pick (k + 1) rest

/-- Grow phase of one `Dish.PERM` round. -/
def permGrowPhase (pick : ℕ → ℕ) (ps : List Polymer) : List (Polymer × ℚ × Bool) :=
  permGrowPhaseAux pick 0 ps

/-- `N_polymers`: the number of polymers that grew this round. -/
def permNgrown (pick : ℕ → ℕ) (ps : List Polymer) : ℕ :=
  ((permGrowPhase pick ps).filter (fun r => r.2.2)).length

/-- The list `w` accumulated by the grow loop: one cached last weight per
polymer in the population, pruned or not. -/
def permWeightList (pick : ℕ → ℕ) (ps : List Polymer) : List ℚ :=
  (permGrowPhase pick ps).map (fun r => r.2.1)

/-- `W_tilde = sum(w)/N_polymers` (line 492).  Division is total here as in
NumPy (where `N_polymers == 0` yields `nan`/`inf` with a warning rather
than an exception). -/
def permWtilde (pick : ℕ → ℕ) (ps : List Polymer) : ℚ :=
  sumQ (permWeightList pick ps) / ((permNgrown pick ps : ℕ) : ℚ)

/-- The population mean weight as the specification words it: the sum of the
last weights of exactly the chains that grew this round, divided by the
number of chains that grew this round. -/
def specWtilde (pick : ℕ → ℕ) (ps : List Polymer) : ℚ :=
  sumQ (((permGrowPhase pick ps).filter (fun r => r.2.2)).map (fun r => r.2.1))
    / ((permNgrown pick ps : ℕ) : ℚ)

/-- The per-polymer body of the second loop of a `Dish.PERM` round
(lines 498–510): for a non-pruned polymer below `W_minus`, a coin flip
either zeroes `node_m_vals[-1]` and marks the polymer pruned
(`coin = true`, Python `choice([0,1]) == 0`) or doubles `node_m_vals[-1]`;
above `W_plus` it halves `node_m_vals[-1]` and schedules a deep copy.
`compute_node_weights` is rerun in each taken branch.  Returns (updated
polymer, copies to append to the population). -/
def pruneEnrichOne (coin : Bool) (Wminus Wplus : ℚ) (p : Polymer) :
    Polymer × List Polymer :=
  if p.pruned then (p, [])
  else if lastWeight p < Wminus then
    if coin then
      (({ p with node_m_vals := setLast p.node_m_vals 0, pruned := true }).compute_node_weights, [])
    else
      (({ p with node_m_vals := setLast p.node_m_vals (2 * lastM p) }).compute_node_weights, [])
  else if Wplus < lastWeight p then
    let p1 := ({ p with node_m_vals := setLast p.node_m_vals (1 / 2 * lastM p) }).compute_node_weights
    (p1, [p1])
  else (p, [])

/-- The second loop of a round over the population, threading the chain
index into the coin oracle. -/
def pruneEnrichAux (coin : ℕ → Bool) (Wminus Wplus : ℚ) :
    ℕ → List Polymer → List (Polymer × List Polymer)
  | _, [] => []
  | k, p :: rest =>
    pruneEnrichOne (coin k) Wminus Wplus p :: pruneEnrichAux coin Wminus Wplus (k + 1) rest

/-- One full round of `Dish.PERM` (one iteration of `for i in range(L-1)`,
lines 463–513): grow phase, thresholds `W_minus = (cplus/10) * W_tilde` and
`W_plus = cplus * W_tilde`, prune/enrich pass, and appending the scheduled
copies to the population. -/
def permRound (cplus : ℚ) (pick : ℕ → ℕ) (coin : ℕ → Bool) (ps : List Polymer) :
    List Polymer :=
  let phase := permGrowPhase pick ps
  let n := (phase.filter (fun r => r.2.2)).length
  let Wt := sumQ (phase.map (fun r => r.2.1)) / ((n : ℕ) : ℚ)
  let Wplus := cplus * Wt
  let Wminus := cplus / 10 * Wt
  let pr := pruneEnrichAux coin Wminus Wplus 0 (phase.map (fun r => r.1))
  pr.map (fun r => r.1) ++ (pr.map (fun r => r.2)).flatten

/-- The round loop of `Dish.PERM`: `rounds` remaining iterations, `r` the
current round number (feeding the random oracles). -/
def permRoundsAux (cplus : ℚ) (pick : ℕ → ℕ → ℕ) (coin : ℕ → ℕ → Bool) :
    ℕ → ℕ → List Polymer → List Polymer
  | _, 0, ps => ps
  | r, n + 1, ps => permRoundsAux cplus pick coin (r + 1) n (permRound cplus (pick r) (coin r) ps)

/-- `L - 1` rounds of `Dish.PERM` starting from a seeded population. -/
def permRounds (cplus : ℚ) (pick : ℕ → ℕ → ℕ) (coin : ℕ → ℕ → Bool)
    (rounds : ℕ) (ps : List Polymer) : List Polymer :=
  permRoundsAux cplus pick coin 0 rounds ps

/-- A sequence of successful `add_monomer` calls. -/
def addChain (p : Polymer) (steps : List (ℕ × String)) : Polymer :=
  steps.foldl (fun q s => (q.add_monomer s.1 s.2).1) p

/-- A self-trapping 7-link chain grown only at the end: seed angle 3 from the
origin, then angles 0,0,1,1,2,3.  Its nodes are (0,0), (0,-1), (1,-1),
(2,-1), (2,0), (2,1), (1,1), (1,0); all four lattice neighbours of the
final `chain_end` (1,0) are already claimed. -/
def chainTrap : Polymer :=
  addChain (Polymer.init (0, 0) 3)
    [(0, ("end")), (0, ("end")), (1, ("end")), (1, ("end")), (2, ("end")), (3, ("end"))]

/-- A chain grown twice from the start anchor and twice from the end anchor:
seed (0,0)→(1,0), start-growth to (-1,0) then (-1,1), end-growth to (1,1)
then (0,1).  Its live anchors (-1,1) and (0,1) are adjacent, and — because
`add_monomer` appends the stale `chain_end` when growing at the start — the
start anchor (-1,1) is absent from `claimed_sites`. -/
def chainC1 : Polymer :=
  addChain (Polymer.init (0, 0) 0)
    [(2, ("start")), (1, ("start")), (1, ("end")), (2, ("end"))]

/-- The direction-index draws steering a seed-angle-3 chain along the
self-trapping route of `chainTrap`, one draw per PERM round. -/
def pickTrapRoute (r : ℕ) : ℕ := [0, 0, 1, 1, 2, 2].getD r 0

/-- Direction oracle for the two-chain PERM scenario: chain 0 follows the
trapping route, chain 1 always picks index 1 (growing straight up). -/
def pickC2 (r k : ℕ) : ℕ := if k = 0 then pickTrapRoute r else 1

/-- Coin oracle for rounds in which the pruning branch is never reached. -/
def coinNever (_r _k : ℕ) : Bool := false

/-- Two seeded chains at the origin, the first steered into the trap. -/
def popC2 : List Polymer := [seedChain (0, 0) 3, seedChain (0, 0) 1]

/-- The population after six PERM rounds (`cplus = 10`): both chains have 7
links; chain 0 is now trapped, chain 1 is free.  In each of those rounds
both chains carry equal weights, so neither threshold fires. -/
def popC2at6 : List Polymer := permRounds 10 pickC2 coinNever 6 popC2

/-- A single seeded chain steered into the trap. -/
def popC4 : List Polymer := [seedChain (0, 0) 3]

/-- Nine PERM rounds (target length 10) on the single trapped chain: the
chain dead-ends in round 6 and the remaining rounds run with zero growing
chains. -/
def resC4 : List Polymer :=
  permRounds 10 (fun r _ => pickTrapRoute r) coinNever 9 popC4

/-- The population of `popC4` after the first six rounds: one trapped but
not yet pruned 7-link chain, about to dead-end. -/
def popC4at6 : List Polymer :=
  permRounds 10 (fun r _ => pickTrapRoute r) coinNever 6 popC4

/-- The errors raised along a sequence of `add_monomer` calls, in call
order. -/
def addChainErrors (p : Polymer) (steps : List (ℕ × String)) : List (Option String) :=
  (steps.foldl
    (fun acc s => ((acc.1.add_monomer s.1 s.2).1, acc.2 ++ [(acc.1.add_monomer s.1 s.2).2]))
    (p, ([] : List (Option String)))).2

/-- A seeded single-link chain with its node weights computed — the state of
a fresh chain right after the grow phase of its first PERM round ran
`compute_node_weights`. -/
def chainC3 : Polymer := (seedChain (0, 0) 1).compute_node_weights

/-- The mean of a list of exact values. -/
def meanQ (l : List ℚ) : ℚ := l.sum / (l.length : ℚ)

/-- The end-to-end formula exactly as the specification words it:
`endToEnd[i] = (x[0] - x[i+1])^2 + (y[0] - y[i+1])^2`. -/
def endToEndSpec (xs ys : List ℤ) (i : ℕ) : ℚ :=
  ((xs.getD 0 0 : ℚ) - (xs.getD (i + 1) 0 : ℚ)) ^ 2
    + ((ys.getD 0 0 : ℚ) - (ys.getD (i + 1) 0 : ℚ)) ^ 2

/-- The gyration formula exactly as the specification words it: centre of
mass and mean squared deviations over the node range `0..i+1` inclusive,
i.e. the first `i+2` nodes. -/
def gyrationSpec (xs ys : List ℤ) (i : ℕ) : ℚ :=
  let xseg := castSeg xs (i + 2)
  let yseg := castSeg ys (i + 2)
  meanQ (xseg.map (fun v => (v - meanQ xseg) ^ 2))
    + meanQ (yseg.map (fun v => (v - meanQ yseg) ^ 2))

/-- The gyration formula the code actually implements, in the same wording:
centre of mass and mean squared deviations over the node range `0..i`
inclusive, i.e. the first `i+1` nodes. -/
def gyrationSpecShort (xs ys : List ℤ) (i : ℕ) : ℚ :=
  let xseg := castSeg xs (i + 1)
  let yseg := castSeg ys (i + 1)
  meanQ (xseg.map (fun v => (v - meanQ xseg) ^ 2))
    + meanQ (yseg.map (fun v => (v - meanQ yseg) ^ 2))

/-- The monomer dictionary of every polymer reachable through `__init__` and
successful `add_monomer` calls has exactly the keys `monomer_0` …
`monomer_<chain_length-1>`, in insertion order. -/
@[reducible] def keysCanonical (p : Polymer) : Prop :=
  p.monomers.map Prod.fst = (List.range p.chain_length).map (fun n => Int.ofNat n)

/-- A two-link chain: seed (0,0)→(1,0), then one growth step at the end
anchor to (1,1). -/
def p2link : Polymer := ((Polymer.init (0, 0) 0).add_monomer 1 ("end")).1

/-- What one PERM round does to a chain that is already pruned: append a `0`
branching entry and recompute the node data (grow-phase `else` branch). -/
def prunedStep (p : Polymer) : Polymer :=
  ({ p with node_m_vals := p.node_m_vals ++ [0] }).compute_node_weights

attribute [local semireducible] Rat.add Rat.mul Rat.sub Rat.inv

lemma getD_map_range (f : ℕ → ℚ) (L i : ℕ) (h : i < L) (d : ℚ) :
    (((List.range L).map f).getD i d) = f i := by
  rw [List.getD_eq_getElem?_getD]
  simp [List.getElem?_map, List.getElem?_range, h]

lemma getLastD_map_range (f : ℕ → ℚ) (L : ℕ) (h : 1 ≤ L) (d : ℚ) :
    ((List.range L).map f).getLastD d = f (L - 1) := by
  obtain ⟨n, rfl⟩ : ∃ n, L = n + 1 := ⟨L - 1, (Nat.succ_pred_eq_of_pos h).symm⟩
  rw [List.range_succ, List.map_append]
  simp

lemma dropLast_append_getLastD (l : List ℚ) (h : l ≠ []) (d : ℚ) :
    l.dropLast ++ [l.getLastD d] = l := by
  rw [List.getLastD_eq_getLast?, List.getLast?_eq_getLast _ h]
  exact List.dropLast_append_getLast h

@[simp] lemma compute_chain_length (p : Polymer) :
    p.compute_node_weights.chain_length = p.chain_length := rfl

@[simp] lemma compute_chain_start (p : Polymer) :
    p.compute_node_weights.chain_start = p.chain_start := rfl

@[simp] lemma compute_chain_end (p : Polymer) :
    p.compute_node_weights.chain_end = p.chain_end := rfl

@[simp] lemma compute_monomers (p : Polymer) :
    p.compute_node_weights.monomers = p.monomers := rfl

@[simp] lemma compute_claimed_sites (p : Polymer) :
    p.compute_node_weights.claimed_sites = p.claimed_sites := rfl

@[simp] lemma compute_node_m_vals (p : Polymer) :
    p.compute_node_weights.node_m_vals = p.node_m_vals := rfl

@[simp] lemma compute_pruned (p : Polymer) :
    p.compute_node_weights.pruned = p.pruned := rfl

lemma compute_node_weights_eq (p : Polymer) :
    p.compute_node_weights.node_weights
      = (List.range p.chain_length).map (fun i => prodQ (p.node_m_vals.take (i + 1))) := rfl

/-- C1: the spec's three-clause conflict rule fails on
`core_funcs.Polymer.conflict`.  `chainC1` is reached by four successful
`add_monomer` calls; the candidate monomer starts at the live end anchor
and its end coordinate equals the start anchor (clause (c): loop closure),
yet `conflict` returns `false`, because growing at the start anchor leaves
the new start site out of `claimed_sites` and the function has no explicit
loop-closure clause.  The `data_funcs.py` variant (`conflictData`), which
has the clause, flags the same candidate.  This contradicts the method's
own docstring, which lists "closing the loop" among the conflicts. -/
theorem conflict_loop_closure_missed :
    chainC1.conflict (mkMonomer 2 chainC1.chain_end) = false
    ∧ (mkMonomer 2 chainC1.chain_end).endLocation = chainC1.chain_start
    ∧ (mkMonomer 2 chainC1.chain_end).location = chainC1.chain_end
    ∧ chainC1.claimed_sites.contains (mkMonomer 2 chainC1.chain_end).endLocation = false
    ∧ conflictData chainC1.claimed_sites chainC1.chain_start chainC1.chain_end
        (mkMonomer 2 chainC1.chain_end) = true
    ∧ addChainErrors (Polymer.init (0, 0) 0)
        [(2, ("start")), (1, ("start")), (1, ("end")), (2, ("end"))]
        = [none, none, none, none] := by
  decide

/-- C8: `add_monomer` is not atomic on the commit path for `loc = 'start'`.
The call succeeds (no exception, the length increments, the start anchor
moves to (-1,0)) but the new site (-1,0) is never recorded in
`claimed_sites`; the stale `chain_end` (1,0) is appended instead.  The
error paths are atomic: a bad `loc` string and a conflicting candidate both
raise with the state exactly as before. -/
theorem add_monomer_start_commit_gap :
    ((Polymer.init (0, 0) 0).add_monomer 2 ("start")).2 = none
    ∧ ((Polymer.init (0, 0) 0).add_monomer 2 ("start")).1.chain_length = 2
    ∧ ((Polymer.init (0, 0) 0).add_monomer 2 ("start")).1.chain_start = (-1, 0)
    ∧ (mkMonomer 2 (0, 0)).endLocation = (-1, 0)
    ∧ ((Polymer.init (0, 0) 0).add_monomer 2 ("start")).1.claimed_sites
        = [(0, 0), (1, 0), (1, 0)]
    ∧ ((Polymer.init (0, 0) 0).add_monomer 2 ("start")).1.claimed_sites.contains
        ((-1, 0) : ℤ × ℤ) = false
    ∧ ((Polymer.init (0, 0) 0).add_monomer 2 ("side")).1 = Polymer.init (0, 0) 0
    ∧ ((Polymer.init (0, 0) 0).add_monomer 2 ("side")).2.isSome = true
    ∧ ((Polymer.init (0, 0) 0).add_monomer 2 ("end")).1 = Polymer.init (0, 0) 0
    ∧ ((Polymer.init (0, 0) 0).add_monomer 2 ("end")).2.isSome = true := by
  decide

/-- C9: the occupied-site invariant breaks on the first start-anchor growth.
After seeding at (0,0) towards (1,0) and successfully appending one monomer
at the start anchor, `claimed_sites` is [(0,0), (1,0), (1,0)]: it has a
duplicate, and the end coordinate (-1,0) of the appended link is missing. -/
theorem claimed_sites_duplicate_on_start_growth :
    ¬ ((Polymer.init (0, 0) 0).add_monomer 2 ("start")).1.claimed_sites.Nodup
    ∧ ((Polymer.init (0, 0) 0).add_monomer 2 ("start")).1.claimed_sites.contains
        ((-1, 0) : ℤ × ℤ) = false
    ∧ ((Polymer.init (0, 0) 0).add_monomer 2 ("start")).2 = none
    ∧ ((Polymer.init (0, 0) 0).add_monomer 2 ("start")).1.chain_length = 2 := by
  decide

/-- C10 counterexample: the seed monomer is reachable through index access —
`polymer[-1]` looks up key `monomer_0` and returns the seed. -/
theorem getitem_negative_index_reaches_seed :
    (Polymer.init (0, 0) 0).getitem (-1) = some (mkMonomer 0 (0, 0))
    ∧ lookupEntry (Polymer.init (0, 0) 0).monomers 0 = some (mkMonomer 0 (0, 0)) := by
  decide

/-- C5 counterexample: `grow_polymer` on the trapped chain records the dead
end (`node_m_vals = [4, 0]`, no link appended) but does **not** mark the
chain pruned, and (being a Python method returning `None`) yields no
achieved-length value — the achieved length is only readable from
`chain_length`. -/
theorem grow_polymer_dead_end_not_pruned :
    (chainTrap.grow_polymer 9 (fun _ => 0)).pruned = false
    ∧ (chainTrap.grow_polymer 9 (fun _ => 0)).chain_length = 7
    ∧ (chainTrap.grow_polymer 9 (fun _ => 0)).node_m_vals = [4, 0]
    ∧ (chainTrap.grow_polymer 9 (fun _ => 0)).monomers = chainTrap.monomers
    ∧ growOptions chainTrap = [] := by
  decide

/-- C3 counterexample: the low-weight "keep" branch doubles the **recorded
branching factor** `node_m_vals[-1]` (from 4 to 8) and reapplies
`compute_node_weights` — the multiplicative formula — rather than touching
the cached weight entry directly; the branching-factor sequence is altered.
The "discard" branch zeroes `node_m_vals[-1]` and marks the chain pruned;
no discarded-chains collection exists, the chain stays in the population. -/
theorem prune_branch_rewrites_branching_factor :
    chainC3.node_m_vals = [4]
    ∧ chainC3.node_weights = [4]
    ∧ chainC3.pruned = false
    ∧ (pruneEnrichOne false 5 100 chainC3).1.node_m_vals = [8]
    ∧ (pruneEnrichOne false 5 100 chainC3).1.node_weights = [8]
    ∧ (pruneEnrichOne true 5 100 chainC3).1.node_m_vals = [0]
    ∧ (pruneEnrichOne true 5 100 chainC3).1.node_weights = [0]
    ∧ (pruneEnrichOne true 5 100 chainC3).1.pruned = true := by
  decide

/-- C7 counterexample: on the single-link seed chain (nodes (0,0) and
(1,0)), the code returns `gyration[0] = 0` — the gyration entry is computed
over the single node 0 — whereas the claim's formula over nodes 0..1
(`i+2 = 2` nodes) gives 1/4.  The end-to-end entry matches the claim. -/
theorem gyration_off_by_one :
    ((Polymer.init (0, 0) 0).observables).1 = [1]
    ∧ ((Polymer.init (0, 0) 0).observables).2 = [0]
    ∧ ((Polymer.init (0, 0) 0).compute_node_weights).nodes_locsx = [0, 1]
    ∧ ((Polymer.init (0, 0) 0).compute_node_weights).nodes_locsy = [0, 0]
    ∧ gyrationSpec [0, 1] [0, 0] 0 = 1 / 4
    ∧ ((Polymer.init (0, 0) 0).observables).2.getD 0 0 ≠ gyrationSpec [0, 1] [0, 0] 0 := by
  decide

/-- C2 counterexample: in round 7 of a PERM run reached from two seeded
chains (`popC2at6` after six rounds in which every threshold comparison is
a no-op), chain 0 dead-ends while chain 1 grows.  The code's population
mean weight is (2916 + 8748)/1 = 11664: the dead-ended chain's stale cached
weight 2916 enters the numerator, though only one chain grew.  The claim's
formula gives 8748/1 = 8748. -/
theorem wtilde_includes_dead_ended_chains :
    popC2at6.map (fun p => (p.pruned, p.chain_length)) = [(false, 7), (false, 7)]
    ∧ (permGrowPhase (pickC2 6) popC2at6).map (fun r => (r.1.pruned, r.2.2))
        = [(true, false), (false, true)]
    ∧ permNgrown (pickC2 6) popC2at6 = 1
    ∧ permWtilde (pickC2 6) popC2at6 = 11664
    ∧ specWtilde (pickC2 6) popC2at6 = 8748
    ∧ permWtilde (pickC2 6) popC2at6 ≠ specWtilde (pickC2 6) popC2at6 := by
  decide

/-- C4 counterexample: after six rounds the single chain of `popC4` is
trapped; in round 7 zero chains grow (`permNgrown = 0`, so the code divides
`sum(w) = 2916` by zero — `nan` in NumPy, total division in this model) —
yet the run does not terminate early and returns no exhaustion signal: all
nine requested rounds execute, appending one `0` branching entry per round
(three zeros in total), and the result is an ordinary population value. -/
theorem perm_continues_after_exhaustion :
    popC4at6.map (fun p => (p.pruned, p.chain_length)) = [(false, 7)]
    ∧ growOptions ((popC4at6.getD 0 chainTrap)) = []
    ∧ permNgrown (fun _ => 0) popC4at6 = 0
    ∧ sumQ (permWeightList (fun _ => 0) popC4at6) = 2916
    ∧ resC4.map (fun p => (p.chain_length, p.pruned, p.node_m_vals))
        = [(7, true, [4, 3, 3, 3, 3, 3, 3, 0, 0, 0])] := by
  decide

/-- C6: for any chain grown by `grow_polymer` (no PERM weight correction),
`compute_node_weights` makes `node_weights[i]` the exact product of the
recorded branching factors `node_m_vals[0..i]`, for every `i` below the
chain length. -/
theorem node_weights_are_products (origin : ℤ × ℤ) (seedAng target : ℕ) (pick : ℕ → ℕ) (i : ℕ)
    (hi : i < (((Polymer.init origin seedAng).grow_polymer target pick).compute_node_weights).chain_length) :
    (((Polymer.init origin seedAng).grow_polymer target pick).compute_node_weights).node_weights.getD i 0
      = prodQ ((((Polymer.init origin seedAng).grow_polymer target pick).compute_node_weights).node_m_vals.take (i + 1)) := by
  rw [compute_node_weights_eq, getD_map_range _ _ _ (by simpa using hi)]
  rw [compute_node_m_vals]

theorem node_weights_are_products_witness :
    (((Polymer.init (0, 0) 0).grow_polymer 3 (fun _ => 0)).compute_node_weights).node_weights.getD 2 0
      = prodQ ((((Polymer.init (0, 0) 0).grow_polymer 3 (fun _ => 0)).compute_node_weights).node_m_vals.take 3) :=
  node_weights_are_products (0, 0) 0 3 (fun _ => 0) 2 (by decide)

lemma growPhaseOne_w_eq (c : ℕ) (p : Polymer) :
    (growPhaseOne c p).2.1 = lastWeight (growPhaseOne c p).1 := by
  by_cases hp : p.pruned <;> by_cases h : 0 < (growOptions p).length <;>
    simp [growPhaseOne, hp, h]

lemma permGrowPhaseAux_w (pick : ℕ → ℕ) (k : ℕ) (ps : List Polymer) :
    (permGrowPhaseAux pick k ps).map (fun r => r.2.1)
      = (permGrowPhaseAux pick k ps).map (fun r => lastWeight r.1) := by
  induction ps generalizing k with
  | nil => rfl
  | cons p rest ih => simp [permGrowPhaseAux, growPhaseOne_w_eq, ih]

/-- C2 amended: the population mean weight `W_tilde` divides the sum of the
post-grow-phase cached last weights of **all** chains in the population —
chains that grew contribute their new weight, chains that are pruned or
dead-ended this round contribute their (possibly stale, nonzero) cached
last weight — by the number of chains that grew this round. -/
theorem wtilde_sums_all_cached_weights (pick : ℕ → ℕ) (ps : List Polymer) :
    permWtilde pick ps
      = sumQ ((permGrowPhase pick ps).map (fun r => lastWeight r.1))
        / ((permNgrown pick ps : ℕ) : ℚ) := by
  unfold permWtilde permWeightList permGrowPhase
  rw [permGrowPhaseAux_w]

lemma lastWeight_compute (p : Polymer) (hL : 1 ≤ p.chain_length) :
    lastWeight p.compute_node_weights = prodQ (p.node_m_vals.take p.chain_length) := by
  unfold lastWeight
  rw [compute_node_weights_eq, getLastD_map_range _ _ hL, Nat.sub_add_cancel hL]

lemma length_setLast (m : List ℚ) (v : ℚ) (hne : m ≠ []) :
    (setLast m v).length = m.length := by
  have : 1 ≤ m.length := List.length_pos.mpr hne
  simp [setLast, List.length_dropLast]
  omega

lemma take_setLast (m : List ℚ) (v : ℚ) (L : ℕ) (hm : m.length = L) (hne : m ≠ []) :
    (setLast m v).take L = m.dropLast ++ [v] := by
  have hlen : (setLast m v).length = L := by rw [length_setLast m v hne, hm]
  rw [← hlen, List.take_length]
  rfl

lemma prodQ_dropLast_mul_last (m : List ℚ) (hne : m ≠ []) :
    prodQ m.dropLast * m.getLastD 0 = prodQ m := by
  conv_rhs => rw [← dropLast_append_getLastD m hne 0]
  simp [prodQ]

/-- C3 amended: for a chain that grew this round with cached last weight
below `W_minus`, the coin branch either (heads) zeroes the last recorded
branching factor, marks the chain pruned and leaves its weight sequence
recomputed to end in 0 — the chain stays in the population, there is no
discarded-chains collection — or (tails) **doubles the last recorded
branching factor** and reapplies the multiplicative weight formula, which
doubles the cached last weight; the rest of the chain state (length,
monomers, occupied sites, anchors) is untouched.  No copy is scheduled in
either branch. -/
theorem prune_branch_amended (p : Polymer) (Wm Wp : ℚ) (coin : Bool)
    (hp : p.pruned = false) (hw : lastWeight p < Wm)
    (hm : p.node_m_vals.length = p.chain_length) (hL : 1 ≤ p.chain_length)
    (hcw : p.node_weights
      = (List.range p.chain_length).map (fun i => prodQ (p.node_m_vals.take (i + 1)))) :
    (pruneEnrichOne coin Wm Wp p).2 = []
    ∧ (coin = true → (pruneEnrichOne coin Wm Wp p).1.pruned = true
        ∧ (pruneEnrichOne coin Wm Wp p).1.node_m_vals = p.node_m_vals.dropLast ++ [0]
        ∧ lastWeight (pruneEnrichOne coin Wm Wp p).1 = 0)
    ∧ (coin = false → (pruneEnrichOne coin Wm Wp p).1.pruned = false
        ∧ (pruneEnrichOne coin Wm Wp p).1.node_m_vals
            = p.node_m_vals.dropLast ++ [2 * lastM p]
        ∧ lastWeight (pruneEnrichOne coin Wm Wp p).1 = 2 * lastWeight p
        ∧ (pruneEnrichOne coin Wm Wp p).1.chain_length = p.chain_length
        ∧ (pruneEnrichOne coin Wm Wp p).1.monomers = p.monomers
        ∧ (pruneEnrichOne coin Wm Wp p).1.claimed_sites = p.claimed_sites
        ∧ (pruneEnrichOne coin Wm Wp p).1.chain_start = p.chain_start
        ∧ (pruneEnrichOne coin Wm Wp p).1.chain_end = p.chain_end) := by
  have hne : p.node_m_vals ≠ [] := by
    intro hnil
    rw [hnil] at hm
    simp at hm
    omega
  have hlastp : lastWeight p = prodQ p.node_m_vals := by
    unfold lastWeight
    rw [hcw, getLastD_map_range _ _ hL, Nat.sub_add_cancel hL, ← hm, List.take_length]
  cases coin with
  | true =>
    refine ⟨by simp [pruneEnrichOne, hp, hw], fun _ => ⟨?_, ?_, ?_⟩, (fun hfalse => nomatch hfalse)⟩
    · simp [pruneEnrichOne, hp, hw]
    · simp [pruneEnrichOne, hp, hw, setLast]
    · have : (pruneEnrichOne true Wm Wp p).1
          = ({ p with node_m_vals := setLast p.node_m_vals 0,
                      pruned := true }).compute_node_weights := by
        simp [pruneEnrichOne, hp, hw]
      rw [this, lastWeight_compute _ (by simpa using hL)]
      have htake : (setLast p.node_m_vals 0).take p.chain_length
          = p.node_m_vals.dropLast ++ [0] := take_setLast _ _ _ hm hne
      simp only [htake]
      simp [prodQ]
  | false =>
    refine ⟨by simp [pruneEnrichOne, hp, hw], (fun htrue => nomatch htrue),
      fun _ => ⟨?_, ?_, ?_, ?_, ?_, ?_, ?_, ?_⟩⟩
    · simp [pruneEnrichOne, hp, hw]
    · simp [pruneEnrichOne, hp, hw, setLast]
    · have hred : (pruneEnrichOne false Wm Wp p).1
          = ({ p with node_m_vals := setLast p.node_m_vals (2 * lastM p) }).compute_node_weights := by
        simp [pruneEnrichOne, hp, hw]
      rw [hred, lastWeight_compute _ (by simpa using hL)]
      have htake : (setLast p.node_m_vals (2 * lastM p)).take p.chain_length
          = p.node_m_vals.dropLast ++ [2 * lastM p] := take_setLast _ _ _ hm hne
      simp only [htake]
      rw [hlastp, ← prodQ_dropLast_mul_last p.node_m_vals hne]
      simp [prodQ, lastM]
      ring
    · simp [pruneEnrichOne, hp, hw]
    · simp [pruneEnrichOne, hp, hw]
    · simp [pruneEnrichOne, hp, hw]
    · simp [pruneEnrichOne, hp, hw]
    · simp [pruneEnrichOne, hp, hw]

theorem prune_branch_amended_witness :
    (pruneEnrichOne false 5 100 chainC3).2 = []
    ∧ (pruneEnrichOne false 5 100 chainC3).1.node_m_vals
        = chainC3.node_m_vals.dropLast ++ [2 * lastM chainC3]
    ∧ lastWeight (pruneEnrichOne false 5 100 chainC3).1 = 2 * lastWeight chainC3
    ∧ (pruneEnrichOne false 5 100 chainC3).1.pruned = false :=
  have H := prune_branch_amended chainC3 5 100 false (by decide) (by decide) (by decide)
    (by decide) (by decide)
  ⟨H.1, (H.2.2 rfl).2.1, (H.2.2 rfl).2.2.1, (H.2.2 rfl).1⟩

/-- C5 amended: at a dead end (all four candidate directions conflict),
`grow_polymer` appends no link, records a `0` branching factor and stops —
but it does **not** mark the chain pruned and returns no achieved-length
value (the achieved length, possibly short of the target, is only readable
from `chain_length`).  The pruned flag is set on dead ends only inside
`Dish.PERM`'s grow phase, which this theorem also states: there the chain
is marked pruned, keeps its length, records `0`, and is not counted as
grown. -/
theorem dead_end_recorded_not_pruned (p : Polymer) (t c : ℕ) (pick : ℕ → ℕ)
    (h : growOptions p = []) (ht : 2 ≤ t) (hp : p.pruned = false) :
    p.grow_polymer t pick = { p with node_m_vals := [4, 0] }
    ∧ (p.grow_polymer t pick).pruned = false
    ∧ (p.grow_polymer t pick).chain_length = p.chain_length
    ∧ (growPhaseOne c p).1.pruned = true
    ∧ (growPhaseOne c p).1.chain_length = p.chain_length
    ∧ (growPhaseOne c p).1.node_m_vals = p.node_m_vals ++ [0]
    ∧ (growPhaseOne c p).2.2 = false := by
  have hgrow : p.grow_polymer t pick = { p with node_m_vals := [4, 0] } := by
    obtain ⟨k, hk⟩ : ∃ k, t - 1 = k + 1 := ⟨t - 2, by omega⟩
    unfold Polymer.grow_polymer
    rw [hk]
    simp [growLoop, h]
  refine ⟨hgrow, by rw [hgrow]; exact hp, by rw [hgrow], ?_, ?_, ?_, ?_⟩
  · simp [growPhaseOne, hp, h]
  · simp [growPhaseOne, hp, h]
  · simp [growPhaseOne, hp, h]
  · simp [growPhaseOne, hp, h]

theorem dead_end_recorded_not_pruned_witness :
    chainTrap.grow_polymer 9 (fun _ => 0) = { chainTrap with node_m_vals := [4, 0] }
    ∧ (chainTrap.grow_polymer 9 (fun _ => 0)).pruned = false
    ∧ (chainTrap.grow_polymer 9 (fun _ => 0)).chain_length = chainTrap.chain_length
    ∧ (growPhaseOne 0 chainTrap).1.pruned = true
    ∧ (growPhaseOne 0 chainTrap).1.chain_length = chainTrap.chain_length
    ∧ (growPhaseOne 0 chainTrap).1.node_m_vals = chainTrap.node_m_vals ++ [0]
    ∧ (growPhaseOne 0 chainTrap).2.2 = false :=
  dead_end_recorded_not_pruned chainTrap 9 0 (fun _ => 0) (by decide) (by decide) (by decide)

lemma growPhaseOne_pruned (c : ℕ) (p : Polymer) (hp : p.pruned = true) :
    growPhaseOne c p = (prunedStep p, lastWeight (prunedStep p), false) := by
  simp [growPhaseOne, hp, prunedStep]

lemma permGrowPhaseAux_pruned (pick : ℕ → ℕ) (k : ℕ) (ps : List Polymer)
    (h : ∀ p ∈ ps, p.pruned = true) :
    permGrowPhaseAux pick k ps
      = ps.map (fun p => (prunedStep p, lastWeight (prunedStep p), false)) := by
  induction ps generalizing k with
  | nil => rfl
  | cons p rest ih =>
    rw [List.map_cons, permGrowPhaseAux, growPhaseOne_pruned _ _ (h p (by simp)),
      ih _ (fun q hq => h q (by simp [hq]))]

lemma pruneEnrichOne_pruned (coin : Bool) (a b : ℚ) (p : Polymer) (hp : p.pruned = true) :
    pruneEnrichOne coin a b p = (p, []) := by
  simp [pruneEnrichOne, hp]

lemma pruneEnrichAux_pruned (coin : ℕ → Bool) (a b : ℚ) (k : ℕ) (ps : List Polymer)
    (h : ∀ p ∈ ps, p.pruned = true) :
    pruneEnrichAux coin a b k ps = ps.map (fun p => (p, ([] : List Polymer))) := by
  induction ps generalizing k with
  | nil => rfl
  | cons p rest ih =>
    rw [List.map_cons, pruneEnrichAux, pruneEnrichOne_pruned _ _ _ _ (h p (by simp)),
      ih _ (fun q hq => h q (by simp [hq]))]

lemma permRound_all_pruned (cplus : ℚ) (pk : ℕ → ℕ) (cn : ℕ → Bool) (ps : List Polymer)
    (h : ∀ p ∈ ps, p.pruned = true) :
    permRound cplus pk cn ps = ps.map prunedStep := by
  have h2 : ∀ q ∈ ps.map prunedStep, q.pruned = true := by
    intro q hq
    obtain ⟨p, hp, rfl⟩ := List.mem_map.mp hq
    simpa [prunedStep] using h p hp
  unfold permRound permGrowPhase
  rw [permGrowPhaseAux_pruned _ _ _ h]
  dsimp only
  have hmap1 : List.map (fun r => (r : Polymer × ℚ × Bool).1)
      (ps.map (fun p => (prunedStep p, lastWeight (prunedStep p), false)))
      = ps.map prunedStep := by simp
  rw [hmap1, pruneEnrichAux_pruned _ _ _ _ _ h2]
  simp [Function.comp_def, List.flatten_eq_nil_iff]

lemma compute_of_compute_update (p : Polymer) (x : List ℚ) :
    ({ p.compute_node_weights with node_m_vals := x }).compute_node_weights
      = ({ p with node_m_vals := x }).compute_node_weights := rfl

lemma prunedStep_collapse (p : Polymer) (n : ℕ) :
    ({ prunedStep p with
        node_m_vals := (prunedStep p).node_m_vals ++ List.replicate n 0 }).compute_node_weights
      = ({ p with
            node_m_vals := p.node_m_vals ++ List.replicate (n + 1) 0 }).compute_node_weights := by
  have hm : (prunedStep p).node_m_vals = p.node_m_vals ++ [0] := rfl
  rw [hm]
  have hrep : p.node_m_vals ++ [0] ++ List.replicate n 0
      = p.node_m_vals ++ List.replicate (n + 1) 0 := by
    rw [List.append_assoc, List.singleton_append, ← List.replicate_succ]
  rw [hrep]
  exact compute_of_compute_update { p with node_m_vals := p.node_m_vals ++ [0] } _

/-- C4 amended: when zero chains grow in a round, the round does **not**
terminate early and no exhaustion signal exists.  `W_tilde`'s denominator
is zero (NumPy produces `nan` with a warning rather than raising; division
is total in this model) and, every chain being pruned, the threshold pass
examines none of them; each remaining round simply appends another `0`
branching entry to every chain and recomputes its node data, until all
requested rounds have executed and the population is returned as a normal
value. -/
theorem perm_no_early_termination (cplus : ℚ) (pick : ℕ → ℕ → ℕ) (coin : ℕ → ℕ → Bool)
    (r n : ℕ) (ps : List Polymer) (h : ∀ p ∈ ps, p.pruned = true) (hn : 1 ≤ n) :
    permRoundsAux cplus pick coin r n ps
      = ps.map (fun p =>
          ({ p with node_m_vals := p.node_m_vals ++ List.replicate n 0 }).compute_node_weights) := by
  induction n generalizing r ps with
  | zero => omega
  | succ m ih =>
    rw [permRoundsAux, permRound_all_pruned _ _ _ _ h]
    cases Nat.eq_zero_or_pos m with
    | inl h0 =>
      subst h0
      rw [permRoundsAux]
      apply List.map_congr_left
      intro p _
      rfl
    | inr hm =>
      have h2 : ∀ q ∈ ps.map prunedStep, q.pruned = true := by
        intro q hq
        obtain ⟨p, hp, rfl⟩ := List.mem_map.mp hq
        simpa [prunedStep] using h p hp
      rw [ih _ _ h2 hm, List.map_map]
      apply List.map_congr_left
      intro p _
      exact prunedStep_collapse p m

theorem perm_no_early_termination_witness :
    permRoundsAux 10 (fun _ _ => 0) (fun _ _ => false) 0 2
        [{ Polymer.init (0, 0) 0 with pruned := true }]
      = [{ Polymer.init (0, 0) 0 with pruned := true }].map (fun p =>
          ({ p with node_m_vals := p.node_m_vals ++ List.replicate 2 0 }).compute_node_weights) :=
  perm_no_early_termination 10 (fun _ _ => 0) (fun _ _ => false) 0 2
    [{ Polymer.init (0, 0) 0 with pruned := true }] (by decide) (by decide)

lemma compute_nodes_x_nonempty (p : Polymer) :
    p.compute_node_weights.nodes_locsx.isEmpty = false := by
  simp [Polymer.compute_node_weights]

lemma compute_nodes_y_nonempty (p : Polymer) :
    p.compute_node_weights.nodes_locsy.isEmpty = false := by
  simp [Polymer.compute_node_weights]

lemma endToEndAt_eq_spec (xs ys : List ℤ) (i : ℕ) :
    endToEndAt xs ys i = endToEndSpec xs ys i := by
  unfold endToEndAt endToEndSpec
  push_cast
  ring

lemma mean_form (l : List ℚ) (n : ℕ) (hl : l.length = n) :
    1 / ((n : ℚ)) * (l.map (fun v => (v - 1 / ((n : ℚ)) * l.sum) ^ 2)).sum
      = meanQ (l.map (fun v => (v - meanQ l) ^ 2)) := by
  unfold meanQ
  rw [List.length_map, hl]
  have hm : 1 / ((n : ℚ)) * l.sum = l.sum / ((n : ℚ)) := by ring
  rw [hm]
  ring

lemma gyrationAt_eq_short (xs ys : List ℤ) (i : ℕ)
    (hx : i + 1 ≤ xs.length) (hy : i + 1 ≤ ys.length) :
    gyrationAt xs ys i = gyrationSpecShort xs ys i := by
  have hlx : (castSeg xs (i + 1)).length = i + 1 := by
    rw [castSeg, List.length_map, List.length_take]
    omega
  have hly : (castSeg ys (i + 1)).length = i + 1 := by
    rw [castSeg, List.length_map, List.length_take]
    omega
  unfold gyrationAt gyrationSpecShort sumQ
  dsimp only
  rw [mean_form _ _ hlx, mean_form _ _ hly]

/-- C7 amended: `observables` returns
`endToEnd[i] = (x[0]-x[i+1])^2 + (y[0]-y[i+1])^2` exactly as claimed, but
`gyration[i]` is computed over the node range `0..i` inclusive (the NumPy
slice `[0:i+1]`, `i+1` nodes): the centre of mass is the mean of `x[0..i]`
and `y[0..i]`, and `gyration[i]` is the mean squared x-deviation plus the
mean squared y-deviation over those same `i+1` nodes. -/
theorem observables_entry_formulas (p : Polymer) (i : ℕ)
    (hi : i < p.chain_length)
    (hx : p.chain_length + 1 ≤ p.compute_node_weights.nodes_locsx.length)
    (hy : p.chain_length + 1 ≤ p.compute_node_weights.nodes_locsy.length) :
    (p.compute_node_weights.observables).1.getD i 0
        = endToEndSpec p.compute_node_weights.nodes_locsx p.compute_node_weights.nodes_locsy i
    ∧ (p.compute_node_weights.observables).2.getD i 0
        = gyrationSpecShort p.compute_node_weights.nodes_locsx p.compute_node_weights.nodes_locsy i := by
  have hobs : p.compute_node_weights.observables
      = ((List.range p.chain_length).map
          (fun j => endToEndAt p.compute_node_weights.nodes_locsx p.compute_node_weights.nodes_locsy j),
         (List.range p.chain_length).map
          (fun j => gyrationAt p.compute_node_weights.nodes_locsx p.compute_node_weights.nodes_locsy j)) := by
    unfold Polymer.observables
    rw [compute_nodes_x_nonempty, compute_nodes_y_nonempty]
    rfl
  constructor
  · rw [hobs]
    dsimp only
    rw [getD_map_range _ _ _ hi, endToEndAt_eq_spec]
  · rw [hobs]
    dsimp only
    rw [getD_map_range _ _ _ hi, gyrationAt_eq_short _ _ _ (by omega) (by omega)]

theorem observables_entry_formulas_witness :
    ((Polymer.init (0, 0) 0).compute_node_weights.observables).1.getD 0 0
        = endToEndSpec (Polymer.init (0, 0) 0).compute_node_weights.nodes_locsx
            (Polymer.init (0, 0) 0).compute_node_weights.nodes_locsy 0
    ∧ ((Polymer.init (0, 0) 0).compute_node_weights.observables).2.getD 0 0
        = gyrationSpecShort (Polymer.init (0, 0) 0).compute_node_weights.nodes_locsx
            (Polymer.init (0, 0) 0).compute_node_weights.nodes_locsy 0 :=
  observables_entry_formulas (Polymer.init (0, 0) 0) 0 (by decide) (by decide) (by decide)

lemma lookupEntry_cons_ne (e : ℤ × Monomer) (l : List (ℤ × Monomer)) (k : ℤ)
    (h : e.1 ≠ k) : lookupEntry (e :: l) k = lookupEntry l k := by
  unfold lookupEntry
  rw [List.find?_cons_of_neg]
  simpa using h

lemma lookupEntry_cons_eq (e : ℤ × Monomer) (l : List (ℤ × Monomer)) (k : ℤ)
    (h : e.1 = k) : lookupEntry (e :: l) k = some e.2 := by
  unfold lookupEntry
  rw [List.find?_cons_of_pos]
  · rfl
  · simpa using h

lemma lookupEntry_none (l : List (ℤ × Monomer)) (k : ℤ) (h : ∀ e ∈ l, e.1 ≠ k) :
    lookupEntry l k = none := by
  unfold lookupEntry
  have hf : List.find? (fun e => e.1 == k) l = none :=
    List.find?_eq_none.mpr (fun x hx => by simpa using h x hx)
  rw [hf]
  rfl

/-- C10 amended: index access shifts by one.  For a chain with the canonical
monomer keys, `polymer[0]` returns the second monomer (`monomer_1`), every
nonnegative index only reads the dictionary entries after the seed (the
lookup key `monomer_<i+1>` never equals the seed key `monomer_0`, so the
seed is unreachable through nonnegative index access — though `polymer[-1]`
does reach it), and `polymer[chain_length - 1]` raises a `KeyError`
(`none`), since no key `monomer_<chain_length>` exists. -/
theorem getitem_shifted_amended (p : Polymer) (hk : keysCanonical p)
    (hL : 1 ≤ p.chain_length) :
    (2 ≤ p.chain_length → p.getitem 0 = (p.monomers[1]?).map Prod.snd)
    ∧ (∀ i : ℤ, 0 ≤ i → p.getitem i = lookupEntry (p.monomers.drop 1) (i + 1))
    ∧ p.getitem ((p.chain_length : ℤ) - 1) = none := by
  unfold keysCanonical at hk
  refine ⟨?_, ?_, ?_⟩
  · intro h2
    obtain ⟨m, hm⟩ : ∃ m, p.chain_length = m + 2 := ⟨p.chain_length - 2, by omega⟩
    rw [hm] at hk
    rw [List.range_succ_eq_map, List.range_succ_eq_map] at hk
    cases hmon : p.monomers with
    | nil => rw [hmon] at hk; simp at hk
    | cons e0 tail =>
      cases htail : tail with
      | nil =>
        rw [hmon, htail] at hk
        simp at hk
      | cons e1 rest =>
        rw [hmon, htail] at hk
        simp only [List.map_cons, List.map_map] at hk
        have he0 : e0.1 = (0 : ℤ) := by
          have := congrArg (fun l => l.getD 0 (37 : ℤ)) hk
          simpa using this
        have he1 : e1.1 = (1 : ℤ) := by
          have := congrArg (fun l => l.getD 1 (37 : ℤ)) hk
          simpa using this
        unfold Polymer.getitem
        rw [hmon, htail]
        rw [lookupEntry_cons_ne e0 _ _ (by rw [he0]; decide),
          lookupEntry_cons_eq e1 _ _ (by rw [he1]; decide)]
        simp
  · intro i hi
    cases hmon : p.monomers with
    | nil =>
      unfold Polymer.getitem lookupEntry
      rw [hmon]
      rfl
    | cons e0 tail =>
      obtain ⟨m, hm⟩ : ∃ m, p.chain_length = m + 1 := ⟨p.chain_length - 1, by omega⟩
      rw [hm, List.range_succ_eq_map] at hk
      rw [hmon] at hk
      simp only [List.map_cons, List.map_map] at hk
      have he0 : e0.1 = (0 : ℤ) := by
        have := congrArg (fun l => l.getD 0 (37 : ℤ)) hk
        simpa using this
      unfold Polymer.getitem
      rw [hmon]
      rw [lookupEntry_cons_ne e0 _ _ (by rw [he0]; omega)]
      rfl
  · unfold Polymer.getitem
    have harith : ((p.chain_length : ℤ) - 1) + 1 = (p.chain_length : ℤ) := by ring
    rw [harith]
    apply lookupEntry_none
    intro e he
    have hmem : e.1 ∈ p.monomers.map Prod.fst := List.mem_map_of_mem _ he
    rw [hk] at hmem
    obtain ⟨n, hn, hne⟩ := List.mem_map.mp hmem
    have hn2 : n < p.chain_length := List.mem_range.mp hn
    intro hcontr
    have hc2 : (n : ℤ) = (p.chain_length : ℤ) := hne.trans hcontr
    have hc3 : n = p.chain_length := by exact_mod_cast hc2
    omega

theorem getitem_shifted_amended_witness :
    p2link.getitem 0 = (p2link.monomers[1]?).map Prod.snd
    ∧ p2link.getitem 5 = lookupEntry (p2link.monomers.drop 1) 6
    ∧ p2link.getitem ((p2link.chain_length : ℤ) - 1) = none :=
  ⟨(getitem_shifted_amended p2link (by decide) (by decide)).1 (by decide),
   (getitem_shifted_amended p2link (by decide) (by decide)).2.1 5 (by decide),
   (getitem_shifted_amended p2link (by decide) (by decide)).2.2⟩

end Polpymer
